import Mathlib

/-!
Shallow embedding of the mutual-consent core of the hisab-kitab backend
(accounts/models.py and accounts/views.py): Friendship, FriendTransaction,
TransactionDeleteRequest and HistoryResetRequest, together with the view
operations that create and act on them.

Conventions of the embedding:
  * Database tables are lists of rows; `DB` bundles the four tables, the
    user table, fresh-id counters and a logical clock used for the
    `created_at` auto-timestamps (only `FriendTransaction.created_at`
    matters to any view, for the `order_by(-created_at)` in the history
    endpoint).
  * Each mutating view is a function `DB → args → Except Err (result × DB)`;
    an `Except.error` models a raised exception, and since every raise in
    the source happens before any write, an error leaves the state as it
    was (the function returns no new `DB`).
  * Django model-level constraints (`Meta.constraints`, `unique_together`)
    are enforced by the `insert*` helpers, modelling the database layer;
    a violation surfaces as `Err.integrity` (an uncaught IntegrityError).
  * DRF `get_object` on a filtered queryset is `filter` followed by
    `find?` on the primary key; a miss is `Err.notFound` (Http404).
    QuerySet `.first()` is `List.head?` of the filter; the Meta ordering
    `-created_at` only matters when several rows match, which the
    uniqueness invariants rule out on every path a claim exercises.
  * `amount` is the decimal amount scaled to an integer number of cents;
    the views only compare it with zero.
-/

namespace HisabKitab

abbrev UserId := Nat

/-- Status enum shared by Friendship and FriendTransaction
(`StatusChoices`: pending / accepted / rejected). -/
inductive TriStatus
  | pending
  | accepted
  | rejected
deriving DecidableEq, Repr

/-- Status enum of TransactionDeleteRequest and HistoryResetRequest
(`StatusChoices`: pending / approved / rejected). -/
inductive ReqStatus
  | pending
  | approved
  | rejected
deriving DecidableEq, Repr

/-- The closed action choice of `FriendshipStatusUpdateSerializer` and
`TransactionStatusUpdateSerializer` (`choices=[accept, reject]`). -/
inductive AcceptAction
  | accept
  | reject
deriving DecidableEq, Repr

/-- The closed action choice of `DeleteRequestActionSerializer` and
`ResetRequestActionSerializer` (`choices=[approve, reject]`). -/
inductive ConsentAction
  | approve
  | reject
deriving DecidableEq, Repr

/-- A row of the external user table: id and (unique) username. -/
structure UserRec where
  id : UserId
  username : String
deriving DecidableEq, Repr

/-- A `Friendship` row (requester, receiver, status). -/
structure Friendship where
  id : Nat
  requester : UserId
  receiver : UserId
  status : TriStatus
deriving DecidableEq, Repr

/-- A `FriendTransaction` row. -/
structure FriendTransaction where
  id : Nat
  initiator : UserId
  friend : UserId
  amount : Int
  description : String
  status : TriStatus
  actionTakenBy : Option UserId
  createdAt : Nat
deriving DecidableEq, Repr

/-- A `TransactionDeleteRequest` row; `transaction` is the foreign key
(`on_delete=CASCADE`) to the FriendTransaction it asks to delete. -/
structure TransactionDeleteRequest where
  id : Nat
  transaction : Nat
  requester : UserId
  status : ReqStatus
deriving DecidableEq, Repr

/-- A `HistoryResetRequest` row. -/
structure HistoryResetRequest where
  id : Nat
  requester : UserId
  targetUser : UserId
  status : ReqStatus
deriving DecidableEq, Repr

/-- The persistent state: the five tables plus fresh-id counters and the
clock stamped into `FriendTransaction.created_at`. -/
structure DB where
  users : List UserRec
  friendships : List Friendship
  transactions : List FriendTransaction
  deleteRequests : List TransactionDeleteRequest
  resetRequests : List HistoryResetRequest
  nextFriendshipId : Nat
  nextTransactionId : Nat
  nextDeleteRequestId : Nat
  nextResetRequestId : Nat
  now : Nat
deriving DecidableEq, Repr

/-- Outcomes raised by the views: `notFound` is DRF NotFound / Http404,
`validation` is DRF ValidationError (including the 400 responses the
update views return on a non-pending row), `integrity` is a
database-level constraint violation (Django IntegrityError escaping
`serializer.save()`). -/
inductive Err
  | notFound (msg : String)
  | validation (msg : String)
  | integrity (msg : String)
deriving DecidableEq, Repr

/-- `User.objects.get(username=...)`: usernames carry a unique constraint,
so the first match is the only one. -/
def findUserByName (db : DB) (name : String) : Option UserRec :=
  db.users.find? (fun u => u.username == name)

/-- The symmetric pair test used by the views:
`Q(requester=a, receiver=b) | Q(requester=b, receiver=a)`. -/
def relatesPair (f : Friendship) (a b : UserId) : Bool :=
  (f.requester == a && f.receiver == b) || (f.requester == b && f.receiver == a)

/-- The symmetric pair test on transactions:
`Q(initiator=a, friend=b) | Q(initiator=b, friend=a)`. -/
def txnBetween (t : FriendTransaction) (a b : UserId) : Bool :=
  (t.initiator == a && t.friend == b) || (t.initiator == b && t.friend == a)

/-- `areFriends`: an accepted Friendship exists in either direction
(the `.exists()` check of CreateTransactionView / RequestHistoryResetView). -/
def areFriends (db : DB) (a b : UserId) : Bool :=
  db.friendships.any (fun f =>
    (f.requester == a && f.receiver == b && f.status == TriStatus.accepted) ||
    (f.requester == b && f.receiver == a && f.status == TriStatus.accepted))

/-- Insert a Friendship row, enforcing `Friendship.Meta.constraints`:
`UniqueConstraint(fields=[requester, receiver])` (directed) and
`CheckConstraint(~Q(requester=F(receiver)))`. -/
def insertFriendship (db : DB) (f : Friendship) : Except Err DB :=
  if db.friendships.any (fun g => g.requester == f.requester && g.receiver == f.receiver) then
    .error (.integrity "unique_friend_request")
  else if f.requester == f.receiver then
    .error (.integrity "prevent_self_request")
  else
    .ok { db with friendships := db.friendships ++ [f],
                  nextFriendshipId := db.nextFriendshipId + 1 }

/-- Insert a FriendTransaction row, enforcing
`CheckConstraint(~Q(initiator=F(friend)))` (`prevent_self_transaction`),
and advancing the `created_at` clock. -/
def insertTransaction (db : DB) (t : FriendTransaction) : Except Err DB :=
  if t.initiator == t.friend then
    .error (.integrity "prevent_self_transaction")
  else
    .ok { db with transactions := db.transactions ++ [t],
                  nextTransactionId := db.nextTransactionId + 1,
                  now := db.now + 1 }

/-- Insert a TransactionDeleteRequest row, enforcing
`Meta.unique_together = [transaction, requester]` (any status). -/
def insertDeleteRequest (db : DB) (r : TransactionDeleteRequest) : Except Err DB :=
  if db.deleteRequests.any (fun q => q.transaction == r.transaction && q.requester == r.requester) then
    .error (.integrity "unique_together transaction requester")
  else
    .ok { db with deleteRequests := db.deleteRequests ++ [r],
                  nextDeleteRequestId := db.nextDeleteRequestId + 1 }

/-- Insert a HistoryResetRequest row (its Meta declares no constraints). -/
def insertResetRequest (db : DB) (r : HistoryResetRequest) : DB :=
  { db with resetRequests := db.resetRequests ++ [r],
            nextResetRequestId := db.nextResetRequestId + 1 }

/-- `FriendRequestSendView.perform_create`: resolve the receiver username,
reject self-requests, look for an existing Friendship in either direction
and raise the status-specific error, otherwise create a pending row. -/
def sendFriendRequest (db : DB) (requester : UserId) (receiverUsername : String) :
    Except Err (Friendship × DB) :=
  if receiverUsername = "" then
    .error (.validation "Receiver username must be provided.")
  else
    match findUserByName db receiverUsername with
    | none => .error (.notFound "User with that username does not exist.")
    | some receiver =>
      if requester == receiver.id then
        .error (.validation "You cannot send a friend request to yourself.")
      else
        match (db.friendships.filter (fun f => relatesPair f requester receiver.id)).head? with
        | some ex =>
          if ex.status == TriStatus.accepted then
            .error (.validation "You are already friends with this user.")
          else if ex.status == TriStatus.pending then
            if ex.requester == receiver.id then
              .error (.validation ("User \x27" ++ receiverUsername ++
                "\x27 has already sent you a friend request. Accept or reject it."))
            else
              .error (.validation ("You have already sent a friend request to \x27" ++
                receiverUsername ++ "\x27."))
          else
            .error (.validation ("Your previous friend request with \x27" ++
              receiverUsername ++ "\x27 was rejected."))
        | none =>
          match insertFriendship db
              { id := db.nextFriendshipId, requester := requester,
                receiver := receiver.id, status := TriStatus.pending } with
          | .error e => .error e
          | .ok db2 =>
            .ok ({ id := db.nextFriendshipId, requester := requester,
                   receiver := receiver.id, status := TriStatus.pending }, db2)

/-- `FriendRequestActionView.get_queryset` restricted to the pk:
only rows sent to the acting user that are still pending are visible. -/
def friendRequestGetObject (db : DB) (user : UserId) (pk : Nat) : Option Friendship :=
  (db.friendships.filter (fun f =>
    f.receiver == user && f.status == TriStatus.pending)).find? (fun f => f.id == pk)

/-- The status an `accept` / `reject` action maps to
(`FriendshipStatusUpdateSerializer.validate` /
`TransactionStatusUpdateSerializer.validate`). -/
def acceptActionStatus : AcceptAction → TriStatus
  | .accept => TriStatus.accepted
  | .reject => TriStatus.rejected

/-- The status an `approve` / `reject` action maps to
(`DeleteRequestActionSerializer.validate` /
`ResetRequestActionSerializer.validate`). -/
def consentActionStatus : ConsentAction → ReqStatus
  | .approve => ReqStatus.approved
  | .reject => ReqStatus.rejected

/-- `FriendRequestActionView.update`: fetch through the filtered queryset
(404 on a miss), re-check pending, apply the transition and save. -/
def actOnFriendRequest (db : DB) (user : UserId) (pk : Nat) (action : AcceptAction) :
    Except Err (Friendship × DB) :=
  match friendRequestGetObject db user pk with
  | none => .error (.notFound "No Friendship matches the given query.")
  | some friendship =>
    let newStatus := acceptActionStatus action
    if friendship.status == TriStatus.pending then
      .ok ({ friendship with status := newStatus },
        { db with friendships := db.friendships.map (fun f =>
            if f.id == pk then { f with status := newStatus } else f) })
    else
      .error (.validation "This request is not pending.")

/-- `CreateTransactionView.perform_create`. Note the source order: the
zero-amount check comes before the username is resolved. -/
def createTransaction (db : DB) (initiator : UserId) (friendUsername : String)
    (amount : Int) (description : String) : Except Err (FriendTransaction × DB) :=
  if friendUsername = "" then
    .error (.validation "Friend username must be provided.")
  else if amount == 0 then
    .error (.validation "Amount cannot be zero.")
  else
    match findUserByName db friendUsername with
    | none => .error (.notFound "User (friend) with that username does not exist.")
    | some friend =>
      if initiator == friend.id then
        .error (.validation "You cannot create a transaction with yourself.")
      else if areFriends db initiator friend.id then
        match insertTransaction db
            { id := db.nextTransactionId, initiator := initiator, friend := friend.id,
              amount := amount, description := description,
              status := TriStatus.pending, actionTakenBy := none, createdAt := db.now } with
        | .error e => .error e
        | .ok db2 =>
          .ok ({ id := db.nextTransactionId, initiator := initiator, friend := friend.id,
                 amount := amount, description := description,
                 status := TriStatus.pending, actionTakenBy := none, createdAt := db.now }, db2)
      else
        .error (.validation ("You are not friends with \x27" ++ friendUsername ++ "\x27."))

/-- `TransactionActionView.get_queryset` restricted to the pk: only rows
whose `friend` is the acting user and that are still pending are visible. -/
def transactionGetObject (db : DB) (user : UserId) (pk : Nat) : Option FriendTransaction :=
  (db.transactions.filter (fun t =>
    t.friend == user && t.status == TriStatus.pending)).find? (fun t => t.id == pk)

/-- `TransactionActionView.update`: fetch through the filtered queryset,
re-check pending, apply the transition and stamp `action_taken_by`. -/
def actOnTransaction (db : DB) (user : UserId) (pk : Nat) (action : AcceptAction) :
    Except Err (FriendTransaction × DB) :=
  match transactionGetObject db user pk with
  | none => .error (.notFound "No FriendTransaction matches the given query.")
  | some txn =>
    let newStatus := acceptActionStatus action
    if txn.status == TriStatus.pending then
      .ok ({ txn with status := newStatus, actionTakenBy := some user },
        { db with transactions := db.transactions.map (fun t =>
            if t.id == pk then { t with status := newStatus, actionTakenBy := some user } else t) })
    else
      .error (.validation "This transaction is not pending.")

/-- `TransactionHistoryView.get_queryset`: resolve the `friend` query
parameter, then return every transaction between the two users in either
direction, newest first by `created_at`. -/
def transactionHistory (db : DB) (user : UserId) (friendUsername : String) :
    Except Err (List FriendTransaction) :=
  if friendUsername = "" then
    .error (.validation "Friend username must be provided as a query parameter.")
  else
    match findUserByName db friendUsername with
    | none => .error (.notFound "Friend not found.")
    | some friend =>
      .ok ((db.transactions.filter (fun t => txnBetween t user friend.id)).mergeSort
        (fun a b => decide (b.createdAt ≤ a.createdAt)))

/-- `RequestTransactionDeleteView.perform_create`: resolve the transaction,
check the requester is one of its two parties, refuse if a pending delete
request already exists for the transaction, then create a pending row
(subject to the `unique_together` database constraint). -/
def requestTransactionDelete (db : DB) (requester : UserId) (transactionId : Option Nat) :
    Except Err (TransactionDeleteRequest × DB) :=
  match transactionId with
  | none => .error (.validation "Transaction ID must be provided.")
  | some tid =>
    match db.transactions.find? (fun t => t.id == tid) with
    | none => .error (.notFound "Transaction not found.")
    | some txn =>
      if requester == txn.initiator || requester == txn.friend then
        match (db.deleteRequests.filter (fun r =>
            r.transaction == txn.id && r.status == ReqStatus.pending)).head? with
        | some _ => .error (.validation "A delete request already exists for this transaction.")
        | none =>
          match insertDeleteRequest db
              { id := db.nextDeleteRequestId, transaction := txn.id,
                requester := requester, status := ReqStatus.pending } with
          | .error e => .error e
          | .ok db2 =>
            .ok ({ id := db.nextDeleteRequestId, transaction := txn.id,
                   requester := requester, status := ReqStatus.pending }, db2)
      else
        .error (.validation "You are not part of this transaction.")

/-- `DeleteRequestActionView.get_queryset` restricted to the pk: pending
delete requests whose transaction involves the acting user, excluding
requests the user filed themselves. -/
def deleteRequestGetObject (db : DB) (user : UserId) (pk : Nat) :
    Option TransactionDeleteRequest :=
  (db.deleteRequests.filter (fun r =>
    db.transactions.any (fun t => t.id == r.transaction &&
      (t.initiator == user || t.friend == user)) &&
    r.status == ReqStatus.pending &&
    !(r.requester == user))).find? (fun r => r.id == pk)

/-- The two response branches of `DeleteRequestActionView.update`. -/
inductive DeleteActionResult
  | approved
  | rejected
deriving DecidableEq, Repr

/-- `DeleteRequestActionView.update`: fetch through the filtered queryset,
save the new status, and on approval delete the referenced transaction;
the `on_delete=CASCADE` foreign key then removes every delete-request row
that references the deleted transaction. -/
def actOnDeleteRequest (db : DB) (user : UserId) (pk : Nat) (action : ConsentAction) :
    Except Err (DeleteActionResult × DB) :=
  match deleteRequestGetObject db user pk with
  | none => .error (.notFound "No TransactionDeleteRequest matches the given query.")
  | some dr =>
    let newStatus := consentActionStatus action
    let db1 := { db with deleteRequests := db.deleteRequests.map (fun r =>
        if r.id == pk then { r with status := newStatus } else r) }
    match action with
    | .approve =>
      .ok (DeleteActionResult.approved,
        { db1 with
          transactions := db1.transactions.filter (fun t => !(t.id == dr.transaction)),
          deleteRequests := db1.deleteRequests.filter (fun r => !(r.transaction == dr.transaction)) })
    | .reject =>
      .ok (DeleteActionResult.rejected, db1)

/-- `RequestHistoryResetView.perform_create`: resolve the target username,
reject self-resets and non-friends, refuse if a pending reset request
already exists in either direction, then create a pending row. -/
def requestHistoryReset (db : DB) (requester : UserId) (friendUsername : String) :
    Except Err (HistoryResetRequest × DB) :=
  if friendUsername = "" then
    .error (.validation "Friend username must be provided.")
  else
    match findUserByName db friendUsername with
    | none => .error (.notFound "Friend not found.")
    | some target =>
      if requester == target.id then
        .error (.validation "You cannot reset history with yourself.")
      else if areFriends db requester target.id then
        match (db.resetRequests.filter (fun r =>
            ((r.requester == requester && r.targetUser == target.id) ||
             (r.requester == target.id && r.targetUser == requester)) &&
            r.status == ReqStatus.pending)).head? with
        | some _ =>
          .error (.validation "A reset request already exists between you and this friend.")
        | none =>
          let r : HistoryResetRequest :=
            { id := db.nextResetRequestId, requester := requester,
              targetUser := target.id, status := ReqStatus.pending }
          .ok (r, insertResetRequest db r)
      else
        .error (.validation "You are not friends with this user.")

/-- `ResetRequestActionView.get_queryset` restricted to the pk: pending
reset requests whose target is the acting user. -/
def resetRequestGetObject (db : DB) (user : UserId) (pk : Nat) : Option HistoryResetRequest :=
  (db.resetRequests.filter (fun r =>
    r.targetUser == user && r.status == ReqStatus.pending)).find? (fun r => r.id == pk)

/-- The two response branches of `ResetRequestActionView.update`; the
approved branch reports how many transactions were deleted. -/
inductive ResetActionResult
  | approved (count : Nat)
  | rejected
deriving DecidableEq, Repr

/-- `ResetRequestActionView.update`: fetch through the filtered queryset,
save the new status, and on approval count and delete every accepted
transaction between the two users (in either direction); the CASCADE
foreign key also removes delete-request rows referencing deleted
transactions. -/
def actOnResetRequest (db : DB) (user : UserId) (pk : Nat) (action : ConsentAction) :
    Except Err (ResetActionResult × DB) :=
  match resetRequestGetObject db user pk with
  | none => .error (.notFound "No HistoryResetRequest matches the given query.")
  | some rq =>
    let newStatus := consentActionStatus action
    let db1 := { db with resetRequests := db.resetRequests.map (fun r =>
        if r.id == pk then { r with status := newStatus } else r) }
    match action with
    | .approve =>
      let toDelete := db1.transactions.filter (fun t =>
        txnBetween t rq.requester rq.targetUser && t.status == TriStatus.accepted)
      .ok (ResetActionResult.approved toDelete.length,
        { db1 with
          transactions := db1.transactions.filter (fun t =>
            !(txnBetween t rq.requester rq.targetUser && t.status == TriStatus.accepted)),
          deleteRequests := db1.deleteRequests.filter (fun r =>
            !(toDelete.any (fun t => t.id == r.transaction))) })
    | .reject =>
      .ok (ResetActionResult.rejected, db1)

/-- Two Friendship rows do not cover the same unordered pair of users. -/
def pairDistinct (f g : Friendship) : Prop :=
  ¬ ((f.requester = g.requester ∧ f.receiver = g.receiver) ∨
     (f.requester = g.receiver ∧ f.receiver = g.requester))

instance : DecidableRel pairDistinct := fun f g => by
  unfold pairDistinct
  infer_instance

/-- The Friendship invariants of the data model: no self-referencing row,
and at most one row per unordered pair of users (both directions counted
together). -/
def FriendshipInvariant (db : DB) : Prop :=
  (∀ f ∈ db.friendships, f.requester ≠ f.receiver) ∧
  List.Pairwise pairDistinct db.friendships

instance : DecidablePred FriendshipInvariant := fun db => by
  unfold FriendshipInvariant
  infer_instance

/-- Two TransactionDeleteRequest rows do not share the same
(transaction, requester) pair. -/
def drDistinct (r s : TransactionDeleteRequest) : Prop :=
  ¬ (r.transaction = s.transaction ∧ r.requester = s.requester)

instance : DecidableRel drDistinct := fun r s => by
  unfold drDistinct
  infer_instance

/-- The `unique_together = [transaction, requester]` invariant: at most one
delete-request row per (transaction, requester) pair, regardless of status. -/
def DeleteRequestInvariant (db : DB) : Prop :=
  List.Pairwise drDistinct db.deleteRequests

instance : DecidablePred DeleteRequestInvariant := fun db => by
  unfold DeleteRequestInvariant
  infer_instance

/-- Example users shared by the concrete test databases. -/
def exUsers : List UserRec := [⟨1, "alice"⟩, ⟨2, "bob"⟩, ⟨3, "carol"⟩]

/-- A base state: alice (1) and bob (2) are accepted friends. -/
def dbBase : DB :=
  { users := exUsers,
    friendships := [⟨1, 1, 2, TriStatus.accepted⟩],
    transactions := [], deleteRequests := [], resetRequests := [],
    nextFriendshipId := 2, nextTransactionId := 1, nextDeleteRequestId := 1,
    nextResetRequestId := 1, now := 0 }

/-- `dbBase` after alice sends carol a friend request. -/
def dbAfterSend : DB :=
  { dbBase with friendships := dbBase.friendships ++ [⟨2, 1, 3, TriStatus.pending⟩],
                nextFriendshipId := 3 }

/-- `dbBase` with one pending transaction from alice to bob. -/
def dbTxn : DB :=
  { dbBase with transactions := [⟨1, 1, 2, 500, "", TriStatus.pending, none, 0⟩],
                nextTransactionId := 2, now := 1 }

/-- `dbBase` with an accepted transaction and a pending delete request on
it filed by alice. -/
def dbDelReq : DB :=
  { dbBase with
    transactions := [⟨1, 1, 2, 500, "", TriStatus.accepted, some 2, 0⟩],
    deleteRequests := [⟨1, 1, 1, ReqStatus.pending⟩],
    nextTransactionId := 2, nextDeleteRequestId := 2, now := 1 }

/-- `dbDelReq` with the delete request already rejected. -/
def dbDelRej : DB :=
  { dbDelReq with deleteRequests := [⟨1, 1, 1, ReqStatus.rejected⟩] }

/-- `dbBase` with three accepted and one pending transaction (one accepted
with carol) and a pending alice→bob reset request. -/
def dbReset : DB :=
  { dbBase with
    transactions := [⟨1, 1, 2, 500, "", TriStatus.accepted, some 2, 0⟩,
                     ⟨2, 2, 1, -300, "", TriStatus.accepted, some 1, 1⟩,
                     ⟨3, 1, 2, 700, "", TriStatus.pending, none, 2⟩,
                     ⟨4, 1, 3, 900, "", TriStatus.accepted, some 3, 3⟩],
    resetRequests := [⟨1, 1, 2, ReqStatus.pending⟩],
    nextTransactionId := 5, nextResetRequestId := 2, now := 4 }

section TableLemmas

variable {α : Type} {f : α → Nat} {p : α → Bool} {l : List α} {r : α} {k : Nat}

/-- Fetching by primary key through a filtered queryset finds the row with
that key when it passes the filter and keys are unique. -/
theorem filter_find?_eq_some (hnd : (l.map f).Nodup) (hr : r ∈ l) (hk : f r = k)
    (hp : p r = true) : (l.filter p).find? (fun x => f x == k) = some r := by
  induction l with
  | nil => cases hr
  | cons a tl ih =>
    simp only [List.map_cons, List.nodup_cons] at hnd
    rcases List.mem_cons.mp hr with h | h
    · subst h
      rw [List.filter_cons_of_pos hp, List.find?_cons_of_pos _ (by simp [hk])]
    · have hfa : f a ≠ k := by
        intro hek
        exact hnd.1 (hek ▸ hk ▸ List.mem_map_of_mem f h)
      by_cases hpa : p a = true
      · rw [List.filter_cons_of_pos hpa, List.find?_cons_of_neg _ (by simp [hfa])]
        exact ih hnd.2 h
      · rw [List.filter_cons_of_neg hpa]
        exact ih hnd.2 h

/-- Fetching by primary key through a filtered queryset misses when the
unique row with that key fails the filter. -/
theorem filter_find?_eq_none (hnd : (l.map f).Nodup) (hr : r ∈ l) (hk : f r = k)
    (hp : p r = false) : (l.filter p).find? (fun x => f x == k) = none := by
  rw [List.find?_eq_none]
  intro x hx
  rcases List.mem_filter.mp hx with ⟨hxl, hpx⟩
  simp only [beq_iff_eq]
  intro hfx
  have hxr : x = r := List.inj_on_of_nodup_map hnd hxl hr (hfx.trans hk.symm)
  rw [hxr] at hpx
  simp [hp] at hpx

end TableLemmas

/-- Success inversion of `insertFriendship`. -/
theorem insertFriendship_ok {db db' : DB} {f : Friendship}
    (h : insertFriendship db f = .ok db') :
    db' = { db with friendships := db.friendships ++ [f],
                    nextFriendshipId := db.nextFriendshipId + 1 } ∧
    f.requester ≠ f.receiver := by
  unfold insertFriendship at h
  split at h
  · simp at h
  split at h
  · simp at h
  rename_i hdup hself
  simp only [Except.ok.injEq] at h
  exact ⟨h.symm, by simpa using hself⟩

/-- Success inversion of `insertTransaction`. -/
theorem insertTransaction_ok {db db' : DB} {t : FriendTransaction}
    (h : insertTransaction db t = .ok db') :
    db' = { db with transactions := db.transactions ++ [t],
                    nextTransactionId := db.nextTransactionId + 1,
                    now := db.now + 1 } ∧
    t.initiator ≠ t.friend := by
  unfold insertTransaction at h
  split at h
  · simp at h
  rename_i hself
  simp only [Except.ok.injEq] at h
  exact ⟨h.symm, by simpa using hself⟩

/-- Success inversion of `insertDeleteRequest`: the row went in and no
other row shares its (transaction, requester) pair. -/
theorem insertDeleteRequest_ok {db db' : DB} {r : TransactionDeleteRequest}
    (h : insertDeleteRequest db r = .ok db') :
    db' = { db with deleteRequests := db.deleteRequests ++ [r],
                    nextDeleteRequestId := db.nextDeleteRequestId + 1 } ∧
    ∀ q ∈ db.deleteRequests, ¬ (q.transaction = r.transaction ∧ q.requester = r.requester) := by
  unfold insertDeleteRequest at h
  split at h
  · simp at h
  rename_i hdup
  simp only [Except.ok.injEq] at h
  refine ⟨h.symm, ?_⟩
  intro q hq hqe
  exact hdup (List.any_eq_true.mpr ⟨q, hq, by simp [hqe.1, hqe.2]⟩)

/-- Success inversion of `sendFriendRequest`: the new row is pending,
belongs to the caller, is not a self-row, and no earlier row related the
same unordered pair. -/
theorem sendFriendRequest_ok {db : DB} {a : UserId} {un : String} {fr : Friendship} {db' : DB}
    (h : sendFriendRequest db a un = .ok (fr, db')) :
    db' = { db with friendships := db.friendships ++ [fr],
                    nextFriendshipId := db.nextFriendshipId + 1 } ∧
    fr.requester = a ∧ fr.status = TriStatus.pending ∧ fr.requester ≠ fr.receiver ∧
    (∃ rc, findUserByName db un = some rc ∧ fr.receiver = rc.id) ∧
    ∀ g ∈ db.friendships, relatesPair g a fr.receiver = false := by
  unfold sendFriendRequest at h
  split at h
  · simp at h
  split at h
  · simp at h
  rename_i receiver heq
  split at h
  · simp at h
  rename_i hneq
  split at h
  · rename_i ex hsome
    split at h
    · simp at h
    split at h
    · split at h <;> simp at h
    · simp at h
  rename_i hnone
  split at h
  · simp at h
  rename_i db2 hins
  simp only [Except.ok.injEq, Prod.mk.injEq] at h
  obtain ⟨hfr, hdb⟩ := h
  obtain ⟨hdb2, hself⟩ := insertFriendship_ok hins
  subst hfr
  refine ⟨by rw [← hdb, hdb2], rfl, rfl, hself, ⟨receiver, heq, rfl⟩, ?_⟩
  intro g hg
  have hnil := List.head?_eq_none_iff.mp hnone
  have hgf := List.filter_eq_nil_iff.mp hnil g hg
  simpa using hgf



/-- Success inversion of the friend-request act view: the acted row was a
pending request addressed to the acting user, and only its status changes. -/
theorem actOnFriendRequest_ok {db : DB} {u : UserId} {pk : Nat} {action : AcceptAction}
    {fr : Friendship} {db' : DB}
    (h : actOnFriendRequest db u pk action = .ok (fr, db')) :
    ∃ g ∈ db.friendships, g.id = pk ∧ g.receiver = u ∧ g.status = TriStatus.pending ∧
      fr = { g with status := acceptActionStatus action } ∧
      db' = { db with friendships := db.friendships.map (fun f =>
        if f.id == pk then { f with status := acceptActionStatus action } else f) } := by
  unfold actOnFriendRequest at h
  split at h
  · simp at h
  rename_i g hobj
  have hmem := List.mem_of_find?_eq_some hobj
  have hid := List.find?_some hobj
  have hq := (List.mem_filter.mp hmem).2
  have hgl := (List.mem_filter.mp hmem).1
  simp only [Bool.and_eq_true, beq_iff_eq] at hq
  simp only [beq_iff_eq] at hid
  simp only [hq.2] at h
  simp only [beq_self_eq_true, if_true] at h
  simp only [Except.ok.injEq, Prod.mk.injEq] at h
  exact ⟨g, hgl, hid, hq.1, hq.2, h.1.symm, h.2.symm⟩

/-- Success inversion of the transaction act view: the acted row was a
pending transaction whose friend is the acting user; the transition sets
the status and stamps action_taken_by. -/
theorem actOnTransaction_ok {db : DB} {u : UserId} {pk : Nat} {action : AcceptAction}
    {tr : FriendTransaction} {db' : DB}
    (h : actOnTransaction db u pk action = .ok (tr, db')) :
    ∃ t ∈ db.transactions, t.id = pk ∧ t.friend = u ∧ t.status = TriStatus.pending ∧
      tr = { t with status := acceptActionStatus action, actionTakenBy := some u } ∧
      db' = { db with transactions := db.transactions.map (fun x =>
        if x.id == pk then { x with status := acceptActionStatus action,
                                    actionTakenBy := some u } else x) } := by
  unfold actOnTransaction at h
  split at h
  · simp at h
  rename_i t hobj
  have hmem := List.mem_of_find?_eq_some hobj
  have hid := List.find?_some hobj
  have hq := (List.mem_filter.mp hmem).2
  have hgl := (List.mem_filter.mp hmem).1
  simp only [Bool.and_eq_true, beq_iff_eq] at hq
  simp only [beq_iff_eq] at hid
  simp only [hq.2] at h
  simp only [beq_self_eq_true, if_true] at h
  simp only [Except.ok.injEq, Prod.mk.injEq] at h
  exact ⟨t, hgl, hid, hq.1, hq.2, h.1.symm, h.2.symm⟩

/-- Success inversion of approving a delete request: the request was
pending, filed by the other party, on a transaction involving the acting
user; the transaction and every request referencing it are removed. -/
theorem actOnDeleteRequest_approve_ok {db : DB} {u : UserId} {pk : Nat}
    {res : DeleteActionResult} {db' : DB}
    (h : actOnDeleteRequest db u pk ConsentAction.approve = .ok (res, db')) :
    ∃ dr ∈ db.deleteRequests, dr.id = pk ∧ dr.status = ReqStatus.pending ∧ dr.requester ≠ u ∧
      (db.transactions.any (fun t => t.id == dr.transaction &&
        (t.initiator == u || t.friend == u))) = true ∧
      res = DeleteActionResult.approved ∧
      db' = { db with
        transactions := db.transactions.filter (fun t => !(t.id == dr.transaction)),
        deleteRequests := (db.deleteRequests.map (fun r =>
          if r.id == pk then { r with status := ReqStatus.approved } else r)).filter
          (fun r => !(r.transaction == dr.transaction)) } := by
  unfold actOnDeleteRequest at h
  split at h
  · simp at h
  rename_i dr hobj
  have hmem := List.mem_of_find?_eq_some hobj
  have hid := List.find?_some hobj
  have hq := (List.mem_filter.mp hmem).2
  have hgl := (List.mem_filter.mp hmem).1
  simp only [Bool.and_eq_true, Bool.not_eq_true', beq_iff_eq, beq_eq_false_iff_ne] at hq
  simp only [beq_iff_eq] at hid
  dsimp only [consentActionStatus] at h
  simp only [Except.ok.injEq, Prod.mk.injEq] at h
  exact ⟨dr, hgl, hid, hq.1.2, hq.2, hq.1.1, h.1.symm, h.2.symm⟩

/-- Success inversion of rejecting a delete request: only the request row
changes status; transactions are untouched. -/
theorem actOnDeleteRequest_reject_ok {db : DB} {u : UserId} {pk : Nat}
    {res : DeleteActionResult} {db' : DB}
    (h : actOnDeleteRequest db u pk ConsentAction.reject = .ok (res, db')) :
    ∃ dr ∈ db.deleteRequests, dr.id = pk ∧ dr.status = ReqStatus.pending ∧ dr.requester ≠ u ∧
      res = DeleteActionResult.rejected ∧
      db' = { db with deleteRequests := db.deleteRequests.map (fun r =>
        if r.id == pk then { r with status := ReqStatus.rejected } else r) } := by
  unfold actOnDeleteRequest at h
  split at h
  · simp at h
  rename_i dr hobj
  have hmem := List.mem_of_find?_eq_some hobj
  have hid := List.find?_some hobj
  have hq := (List.mem_filter.mp hmem).2
  have hgl := (List.mem_filter.mp hmem).1
  simp only [Bool.and_eq_true, Bool.not_eq_true', beq_iff_eq, beq_eq_false_iff_ne] at hq
  simp only [beq_iff_eq] at hid
  dsimp only [consentActionStatus] at h
  simp only [Except.ok.injEq, Prod.mk.injEq] at h
  exact ⟨dr, hgl, hid, hq.1.2, hq.2, h.1.symm, h.2.symm⟩

/-- Success inversion of approving a reset request: the request was pending
and addressed to the acting user; the accepted transactions between the
pair are removed and counted. -/
theorem actOnResetRequest_approve_ok {db : DB} {u : UserId} {pk : Nat}
    {res : ResetActionResult} {db' : DB}
    (h : actOnResetRequest db u pk ConsentAction.approve = .ok (res, db')) :
    ∃ rq ∈ db.resetRequests, rq.id = pk ∧ rq.targetUser = u ∧ rq.status = ReqStatus.pending ∧
      res = ResetActionResult.approved ((db.transactions.filter (fun t =>
        txnBetween t rq.requester rq.targetUser && t.status == TriStatus.accepted)).length) ∧
      db' = { db with
        resetRequests := db.resetRequests.map (fun r =>
          if r.id == pk then { r with status := ReqStatus.approved } else r),
        transactions := db.transactions.filter (fun t =>
          !(txnBetween t rq.requester rq.targetUser && t.status == TriStatus.accepted)),
        deleteRequests := db.deleteRequests.filter (fun r =>
          !((db.transactions.filter (fun t =>
            txnBetween t rq.requester rq.targetUser && t.status == TriStatus.accepted)).any
            (fun t => t.id == r.transaction))) } := by
  unfold actOnResetRequest at h
  split at h
  · simp at h
  rename_i rq hobj
  have hmem := List.mem_of_find?_eq_some hobj
  have hid := List.find?_some hobj
  have hq := (List.mem_filter.mp hmem).2
  have hgl := (List.mem_filter.mp hmem).1
  simp only [Bool.and_eq_true, beq_iff_eq] at hq
  simp only [beq_iff_eq] at hid
  dsimp only [consentActionStatus] at h
  simp only [Except.ok.injEq, Prod.mk.injEq] at h
  exact ⟨rq, hgl, hid, hq.1, hq.2, h.1.symm, h.2.symm⟩

/-- Success inversion of rejecting a reset request: only the request row
changes status. -/
theorem actOnResetRequest_reject_ok {db : DB} {u : UserId} {pk : Nat}
    {res : ResetActionResult} {db' : DB}
    (h : actOnResetRequest db u pk ConsentAction.reject = .ok (res, db')) :
    ∃ rq ∈ db.resetRequests, rq.id = pk ∧ rq.targetUser = u ∧ rq.status = ReqStatus.pending ∧
      res = ResetActionResult.rejected ∧
      db' = { db with resetRequests := db.resetRequests.map (fun r =>
        if r.id == pk then { r with status := ReqStatus.rejected } else r) } := by
  unfold actOnResetRequest at h
  split at h
  · simp at h
  rename_i rq hobj
  have hmem := List.mem_of_find?_eq_some hobj
  have hid := List.find?_some hobj
  have hq := (List.mem_filter.mp hmem).2
  have hgl := (List.mem_filter.mp hmem).1
  simp only [Bool.and_eq_true, beq_iff_eq] at hq
  simp only [beq_iff_eq] at hid
  dsimp only [consentActionStatus] at h
  simp only [Except.ok.injEq, Prod.mk.injEq] at h
  exact ⟨rq, hgl, hid, hq.1, hq.2, h.1.symm, h.2.symm⟩



/-- Success inversion of createTransaction: the new row is pending with
the given fields, the amount is nonzero, the parties are distinct and
hold an accepted friendship, and the username resolved to the friend. -/
theorem createTransaction_ok {db : DB} {a : UserId} {un : String} {amt : Int} {d : String}
    {t : FriendTransaction} {db' : DB}
    (h : createTransaction db a un amt d = .ok (t, db')) :
    db' = { db with transactions := db.transactions ++ [t],
                    nextTransactionId := db.nextTransactionId + 1,
                    now := db.now + 1 } ∧
    t = { id := db.nextTransactionId, initiator := a, friend := t.friend, amount := amt,
          description := d, status := TriStatus.pending, actionTakenBy := none,
          createdAt := db.now } ∧
    amt ≠ 0 ∧ a ≠ t.friend ∧ areFriends db a t.friend = true ∧
    ∃ rec, findUserByName db un = some rec ∧ rec.id = t.friend := by
  unfold createTransaction at h
  split at h
  · simp at h
  split at h
  · simp at h
  rename_i hun hamt
  split at h
  · simp at h
  rename_i friend hfind
  split at h
  · simp at h
  rename_i hneq
  split at h
  · rename_i hfr
    split at h
    · simp at h
    rename_i db2 hins
    simp only [Except.ok.injEq, Prod.mk.injEq] at h
    obtain ⟨ht, hdb⟩ := h
    obtain ⟨hdb2, hself⟩ := insertTransaction_ok hins
    subst ht
    refine ⟨by rw [← hdb, hdb2], rfl, by simpa using hamt, by simpa using hneq, hfr, friend, hfind, rfl⟩
  · simp at h

/-- Success inversion of requestTransactionDelete: the new request is
pending, filed by a party to an existing transaction, no other request
row shares its (transaction, requester) pair, and no pending request on
the transaction existed. -/
theorem requestTransactionDelete_ok {db : DB} {a : UserId} {tid? : Option Nat}
    {r : TransactionDeleteRequest} {db' : DB}
    (h : requestTransactionDelete db a tid? = .ok (r, db')) :
    db' = { db with deleteRequests := db.deleteRequests ++ [r],
                    nextDeleteRequestId := db.nextDeleteRequestId + 1 } ∧
    r.status = ReqStatus.pending ∧ r.requester = a ∧
    tid? = some r.transaction ∧
    (∀ q ∈ db.deleteRequests, ¬ (q.transaction = r.transaction ∧ q.requester = a)) ∧
    (∀ q ∈ db.deleteRequests, ¬ (q.transaction = r.transaction ∧ q.status = ReqStatus.pending)) ∧
    ∃ txn ∈ db.transactions, txn.id = r.transaction ∧ (a = txn.initiator ∨ a = txn.friend) := by
  unfold requestTransactionDelete at h
  split at h
  · simp at h
  rename_i tid
  split at h
  · simp at h
  rename_i txn hfind
  split at h
  · rename_i hparty
    split at h
    · simp at h
    rename_i hnone
    split at h
    · simp at h
    rename_i db2 hins
    simp only [Except.ok.injEq, Prod.mk.injEq] at h
    obtain ⟨hr, hdb⟩ := h
    obtain ⟨hdb2, huniq⟩ := insertDeleteRequest_ok hins
    subst hr
    have hnil := List.head?_eq_none_iff.mp hnone
    have hpend := List.filter_eq_nil_iff.mp hnil
    refine ⟨by rw [← hdb, hdb2], rfl, rfl, ?_, ?_, ?_, txn, List.mem_of_find?_eq_some hfind, ?_, ?_⟩
    · have htid := List.find?_some hfind
      simp only [beq_iff_eq] at htid
      exact (congrArg some htid).symm
    · intro q hq hqe
      exact huniq q hq ⟨hqe.1, hqe.2⟩
    · intro q hq hqe
      have := hpend q hq
      simp only [Bool.and_eq_true, beq_iff_eq, not_and] at this
      exact this hqe.1 hqe.2
    · exact rfl
    · simpa using hparty
  · simp at h

/-- Success inversion of requestHistoryReset: a pending reset-request row
by the caller is appended; nothing else changes. -/
theorem requestHistoryReset_ok {db : DB} {a : UserId} {un : String}
    {r : HistoryResetRequest} {db' : DB}
    (h : requestHistoryReset db a un = .ok (r, db')) :
    db' = { db with resetRequests := db.resetRequests ++ [r],
                    nextResetRequestId := db.nextResetRequestId + 1 } ∧
    r.status = ReqStatus.pending ∧ r.requester = a := by
  unfold requestHistoryReset at h
  split at h
  · simp at h
  split at h
  · simp at h
  rename_i target hfind
  split at h
  · simp at h
  rename_i hneq
  split at h
  · rename_i hfr
    split at h
    · simp at h
    rename_i hnone
    simp only [Except.ok.injEq, Prod.mk.injEq] at h
    obtain ⟨hr, hdb⟩ := h
    subst hr
    exact ⟨by rw [← hdb]; rfl, rfl, rfl⟩
  · simp at h



/-- When the transaction resolves, the requester is a party, no pending
delete request exists on the transaction and the requester has no
delete-request row on it at any status, requesting a delete succeeds and
appends a pending row. -/
theorem requestTransactionDelete_creates {db : DB} {a : UserId} {tid : Nat}
    {txn : FriendTransaction}
    (hfind : db.transactions.find? (fun t => t.id == tid) = some txn)
    (hparty : a = txn.initiator ∨ a = txn.friend)
    (hnone : (db.deleteRequests.filter (fun r => r.transaction == txn.id &&
      r.status == ReqStatus.pending)).head? = none)
    (huniq : ∀ q ∈ db.deleteRequests, ¬ (q.transaction = txn.id ∧ q.requester = a)) :
    ∃ r db', requestTransactionDelete db a (some tid) = .ok (r, db') ∧
      r.transaction = txn.id ∧ r.requester = a ∧ r.status = ReqStatus.pending ∧
      db'.deleteRequests = db.deleteRequests ++ [r] := by
  have htxnid : txn.id = tid := by
    have := List.find?_some hfind
    simpa using this
  have hrun : ∃ p, requestTransactionDelete db a (some tid) = .ok p := by
    unfold requestTransactionDelete insertDeleteRequest
    simp only [hfind]
    rw [if_pos (by rcases hparty with h | h <;> simp [h])]
    simp only [hnone]
    rw [if_neg ?hcon]
    case hcon =>
      intro hany
      obtain ⟨q, hq, hqe⟩ := List.any_eq_true.mp hany
      simp only [Bool.and_eq_true, beq_iff_eq] at hqe
      exact huniq q hq ⟨hqe.1, hqe.2⟩
    exact ⟨_, rfl⟩
  obtain ⟨⟨r, db'⟩, hrun⟩ := hrun
  obtain ⟨hdb, hst, hreq, htid, _, _, _⟩ := requestTransactionDelete_ok hrun
  have hrt : r.transaction = txn.id := by
    have : tid = r.transaction := Option.some.inj htid
    rw [htxnid, ← this]
  exact ⟨r, db', hrun, hrt, hreq, hst, by rw [hdb]⟩

/-- C1 (amended): approving a pending delete request as the authorized
counter-party deletes the referenced FriendTransaction permanently, and —
because the foreign key is declared `on_delete=CASCADE` — also removes
every TransactionDeleteRequest row referencing that transaction,
including the acted-on request itself; delete requests on other
transactions survive. (The original claim that the request row still
exists afterwards with status approved is refuted by
`c1_request_row_persistence_counterexample`.) -/
theorem c1_delete_request_approve_cascades {db : DB} {u : UserId} {pk : Nat}
    {dr : TransactionDeleteRequest}
    (hnd : (db.deleteRequests.map (fun r => r.id)).Nodup)
    (hdr : dr ∈ db.deleteRequests) (hid : dr.id = pk)
    (hst : dr.status = ReqStatus.pending) (hreq : dr.requester ≠ u)
    (htx : (db.transactions.any (fun t => t.id == dr.transaction &&
      (t.initiator == u || t.friend == u))) = true) :
    ∃ db', actOnDeleteRequest db u pk ConsentAction.approve
        = .ok (DeleteActionResult.approved, db') ∧
      db'.transactions = db.transactions.filter (fun t => !(t.id == dr.transaction)) ∧
      (∀ r ∈ db'.deleteRequests, r.transaction ≠ dr.transaction) ∧
      (∀ r ∈ db'.deleteRequests, r.id ≠ pk) ∧
      (∀ r ∈ db.deleteRequests, r.transaction ≠ dr.transaction → r ∈ db'.deleteRequests) := by
  have hobj : deleteRequestGetObject db u pk = some dr := by
    unfold deleteRequestGetObject
    refine filter_find?_eq_some hnd hdr hid ?_
    simp [htx, hst, hreq]
  have hrun : ∃ p, actOnDeleteRequest db u pk ConsentAction.approve = .ok p := by
    unfold actOnDeleteRequest
    rw [hobj]
    exact ⟨_, rfl⟩
  obtain ⟨⟨res, db'⟩, hrun⟩ := hrun
  obtain ⟨dr2, hdr2, hid2, hst2, hreq2, htx2, hres, hdb'⟩ :=
    actOnDeleteRequest_approve_ok hrun
  have hdr2dr : dr2 = dr :=
    List.inj_on_of_nodup_map hnd hdr2 hdr (by rw [hid2, hid])
  subst hdr2dr
  refine ⟨db', by rw [hrun, hres], ?_, ?_, ?_, ?_⟩
  · rw [hdb']
  · intro r hr
    rw [hdb'] at hr
    have := (List.mem_filter.mp hr).2
    simpa using this
  · intro r hr hrid
    rw [hdb'] at hr
    obtain ⟨hrm, hrp⟩ := List.mem_filter.mp hr
    obtain ⟨r0, hr0, hr0e⟩ := List.mem_map.mp hrm
    by_cases h0 : (r0.id == pk) = true
    · have hr0dr : r0 = dr2 :=
        List.inj_on_of_nodup_map hnd hr0 hdr2 (by rw [hid2]; exact beq_iff_eq.mp h0)
      rw [if_pos h0, hr0dr] at hr0e
      rw [← hr0e] at hrp
      simp at hrp
    · rw [if_neg h0] at hr0e
      rw [← hr0e] at hrid
      exact h0 (by simp [hrid])
  · intro r hr hrt
    rw [hdb']
    refine List.mem_filter.mpr ⟨?_, by simp [hrt]⟩
    have hne : (r.id == pk) = false := by
      by_contra hcon
      have h0 : (r.id == pk) = true := by
        cases hb : (r.id == pk) with
        | false => exact absurd hb hcon
        | true => rfl
      have : r = dr2 := by
        refine List.inj_on_of_nodup_map hnd hr hdr2 ?_
        rw [hid2]
        exact (beq_iff_eq).mp h0
      exact hrt (by rw [this])
    have : (fun q => if q.id == pk then { q with status := ReqStatus.approved } else q) r = r := by
      simp [hne]
    rw [← this]
    exact List.mem_map_of_mem _ hr


/-- C1 counterexample: in `dbDelReq` the delete request (id 1, filed by
alice on transaction 1) is pending; bob approves it. The operation
succeeds, but afterwards the deleteRequests table is empty — the acted-on
request row does NOT still exist with status approved, contradicting the
claim. -/
theorem c1_request_row_persistence_counterexample :
    actOnDeleteRequest dbDelReq 2 1 ConsentAction.approve
      = .ok (DeleteActionResult.approved,
          { dbDelReq with transactions := [], deleteRequests := [] }) ∧
    dbDelReq.deleteRequests = [⟨1, 1, 1, ReqStatus.pending⟩] :=
  ⟨rfl, rfl⟩

/-- C1 witness: the amended theorem applied to `dbDelReq`. -/
theorem c1_delete_request_approve_cascades_witness :
    ∃ db', actOnDeleteRequest dbDelReq 2 1 ConsentAction.approve
        = .ok (DeleteActionResult.approved, db') ∧
      db'.transactions = dbDelReq.transactions.filter (fun t => !(t.id == 1)) ∧
      (∀ r ∈ db'.deleteRequests, r.transaction ≠ 1) ∧
      (∀ r ∈ db'.deleteRequests, r.id ≠ 1) ∧
      (∀ r ∈ dbDelReq.deleteRequests, r.transaction ≠ 1 → r ∈ db'.deleteRequests) :=
  @c1_delete_request_approve_cascades dbDelReq 2 1 ⟨1, 1, 1, ReqStatus.pending⟩
    (by decide) (by decide) rfl rfl (by decide) (by decide)

/-- C2: once a Friendship / FriendTransaction / TransactionDeleteRequest /
HistoryResetRequest is resolved (status no longer pending), a second act
call on its id by any user fails with NotFound (the filtered queryset no
longer contains the row, so the state is untouched — error results carry
no new state in this embedding); and an act call succeeds only on a row
that is still pending and addressed to the acting user. -/
theorem c2_resolved_rows_cannot_be_acted_on (db : DB) (u : UserId) (pk : Nat) :
    (∀ (act : AcceptAction) (g : Friendship), (db.friendships.map (fun f => f.id)).Nodup →
       g ∈ db.friendships → g.id = pk → g.status ≠ TriStatus.pending →
       actOnFriendRequest db u pk act
         = .error (.notFound "No Friendship matches the given query.")) ∧
    (∀ (act : AcceptAction) (t : FriendTransaction), (db.transactions.map (fun x => x.id)).Nodup →
       t ∈ db.transactions → t.id = pk → t.status ≠ TriStatus.pending →
       actOnTransaction db u pk act
         = .error (.notFound "No FriendTransaction matches the given query.")) ∧
    (∀ (act : ConsentAction) (r : TransactionDeleteRequest),
       (db.deleteRequests.map (fun x => x.id)).Nodup →
       r ∈ db.deleteRequests → r.id = pk → r.status ≠ ReqStatus.pending →
       actOnDeleteRequest db u pk act
         = .error (.notFound "No TransactionDeleteRequest matches the given query.")) ∧
    (∀ (act : ConsentAction) (r : HistoryResetRequest),
       (db.resetRequests.map (fun x => x.id)).Nodup →
       r ∈ db.resetRequests → r.id = pk → r.status ≠ ReqStatus.pending →
       actOnResetRequest db u pk act
         = .error (.notFound "No HistoryResetRequest matches the given query.")) ∧
    (∀ (act : AcceptAction) (fr : Friendship) (db' : DB),
       actOnFriendRequest db u pk act = .ok (fr, db') →
       ∃ g ∈ db.friendships, g.id = pk ∧ g.receiver = u ∧ g.status = TriStatus.pending) ∧
    (∀ (act : AcceptAction) (tr : FriendTransaction) (db' : DB),
       actOnTransaction db u pk act = .ok (tr, db') →
       ∃ t ∈ db.transactions, t.id = pk ∧ t.friend = u ∧ t.status = TriStatus.pending) ∧
    (∀ (act : ConsentAction) (res : DeleteActionResult) (db' : DB),
       actOnDeleteRequest db u pk act = .ok (res, db') →
       ∃ r ∈ db.deleteRequests, r.id = pk ∧ r.status = ReqStatus.pending ∧ r.requester ≠ u) ∧
    (∀ (act : ConsentAction) (res : ResetActionResult) (db' : DB),
       actOnResetRequest db u pk act = .ok (res, db') →
       ∃ r ∈ db.resetRequests, r.id = pk ∧ r.targetUser = u ∧ r.status = ReqStatus.pending) := by
  refine ⟨?_, ?_, ?_, ?_, ?_, ?_, ?_, ?_⟩
  · intro act g hnd hg hid hst
    have hb : (g.status == TriStatus.pending) = false := beq_eq_false_iff_ne.mpr hst
    have hobj : friendRequestGetObject db u pk = none := by
      unfold friendRequestGetObject
      exact filter_find?_eq_none hnd hg hid (by simp [hb])
    unfold actOnFriendRequest
    rw [hobj]
  · intro act t hnd ht hid hst
    have hb : (t.status == TriStatus.pending) = false := beq_eq_false_iff_ne.mpr hst
    have hobj : transactionGetObject db u pk = none := by
      unfold transactionGetObject
      exact filter_find?_eq_none hnd ht hid (by simp [hb])
    unfold actOnTransaction
    rw [hobj]
  · intro act r hnd hr hid hst
    have hb : (r.status == ReqStatus.pending) = false := beq_eq_false_iff_ne.mpr hst
    have hobj : deleteRequestGetObject db u pk = none := by
      unfold deleteRequestGetObject
      exact filter_find?_eq_none hnd hr hid (by simp [hb])
    unfold actOnDeleteRequest
    rw [hobj]
  · intro act r hnd hr hid hst
    have hb : (r.status == ReqStatus.pending) = false := beq_eq_false_iff_ne.mpr hst
    have hobj : resetRequestGetObject db u pk = none := by
      unfold resetRequestGetObject
      exact filter_find?_eq_none hnd hr hid (by simp [hb])
    unfold actOnResetRequest
    rw [hobj]
  · intro act fr db' h
    obtain ⟨g, hg, hid, hrecv, hst, _, _⟩ := actOnFriendRequest_ok h
    exact ⟨g, hg, hid, hrecv, hst⟩
  · intro act tr db' h
    obtain ⟨t, ht, hid, hfr, hst, _, _⟩ := actOnTransaction_ok h
    exact ⟨t, ht, hid, hfr, hst⟩
  · intro act res db' h
    cases act with
    | approve =>
      obtain ⟨r, hr, hid, hst, hreq, _, _, _⟩ := actOnDeleteRequest_approve_ok h
      exact ⟨r, hr, hid, hst, hreq⟩
    | reject =>
      obtain ⟨r, hr, hid, hst, hreq, _, _⟩ := actOnDeleteRequest_reject_ok h
      exact ⟨r, hr, hid, hst, hreq⟩
  · intro act res db' h
    cases act with
    | approve =>
      obtain ⟨r, hr, hid, htgt, hst, _, _⟩ := actOnResetRequest_approve_ok h
      exact ⟨r, hr, hid, htgt, hst⟩
    | reject =>
      obtain ⟨r, hr, hid, htgt, hst, _, _⟩ := actOnResetRequest_reject_ok h
      exact ⟨r, hr, hid, htgt, hst⟩

/-- C2 witness: in `dbBase` the only Friendship row (id 1) is already
accepted; bob acting on it again gets NotFound. -/
theorem c2_resolved_rows_cannot_be_acted_on_witness :
    actOnFriendRequest dbBase 2 1 AcceptAction.accept
      = .error (.notFound "No Friendship matches the given query.") :=
  (c2_resolved_rows_cannot_be_acted_on dbBase 2 1).1 AcceptAction.accept
    ⟨1, 1, 2, TriStatus.accepted⟩ (by decide) (by decide) rfl (by decide)

/-- C3: sending a friend request performs a symmetric (either-direction)
lookup; whenever any Friendship row already exists between the pair the
call fails with the status-specific conflict message, and only when no
row exists in either direction is a new pending row created. -/
theorem c3_send_request_symmetric_conflict (db : DB) (a : UserId) (un : String)
    (rc : UserRec) (hun : un ≠ "") (hfind : findUserByName db un = some rc)
    (hne : a ≠ rc.id) :
    ((db.friendships.filter (fun f => relatesPair f a rc.id)) ≠ [] →
      ∃ msg, sendFriendRequest db a un = .error (.validation msg)) ∧
    (∀ ex, (db.friendships.filter (fun f => relatesPair f a rc.id)).head? = some ex →
      (ex.status = TriStatus.accepted →
        sendFriendRequest db a un
          = .error (.validation "You are already friends with this user.")) ∧
      (ex.status = TriStatus.pending → ex.requester = rc.id →
        sendFriendRequest db a un = .error (.validation ("User \x27" ++ un ++
          "\x27 has already sent you a friend request. Accept or reject it."))) ∧
      (ex.status = TriStatus.pending → ex.requester = a →
        sendFriendRequest db a un = .error (.validation
          ("You have already sent a friend request to \x27" ++ un ++ "\x27."))) ∧
      (ex.status = TriStatus.rejected →
        sendFriendRequest db a un = .error (.validation
          ("Your previous friend request with \x27" ++ un ++ "\x27 was rejected.")))) ∧
    ((db.friendships.filter (fun f => relatesPair f a rc.id)) = [] →
      ∃ fr db', sendFriendRequest db a un = .ok (fr, db') ∧
        fr.requester = a ∧ fr.receiver = rc.id ∧ fr.status = TriStatus.pending ∧
        db'.friendships = db.friendships ++ [fr]) := by
  have hba : ¬ ((a == rc.id) = true) := by simp [hne]
  have hcases : ∀ ex, (db.friendships.filter (fun f => relatesPair f a rc.id)).head? = some ex →
      (ex.status = TriStatus.accepted →
        sendFriendRequest db a un
          = .error (.validation "You are already friends with this user.")) ∧
      (ex.status = TriStatus.pending → ex.requester = rc.id →
        sendFriendRequest db a un = .error (.validation ("User \x27" ++ un ++
          "\x27 has already sent you a friend request. Accept or reject it."))) ∧
      (ex.status = TriStatus.pending → ex.requester = a →
        sendFriendRequest db a un = .error (.validation
          ("You have already sent a friend request to \x27" ++ un ++ "\x27."))) ∧
      (ex.status = TriStatus.rejected →
        sendFriendRequest db a un = .error (.validation
          ("Your previous friend request with \x27" ++ un ++ "\x27 was rejected.")))  := by
    intro ex hsome
    refine ⟨?_, ?_, ?_, ?_⟩
    · intro hacc
      unfold sendFriendRequest
      rw [if_neg hun]
      simp only [hfind]
      rw [if_neg hba]
      simp [hsome, hacc]
    · intro hpend hreqr
      unfold sendFriendRequest
      rw [if_neg hun]
      simp only [hfind]
      rw [if_neg hba]
      simp [hsome, hpend, hreqr]
    · intro hpend hreqa
      have hrne : ex.requester ≠ rc.id := by rw [hreqa]; exact hne
      unfold sendFriendRequest
      rw [if_neg hun]
      simp only [hfind]
      rw [if_neg hba]
      simp [hsome, hpend, hrne]
    · intro hrej
      unfold sendFriendRequest
      rw [if_neg hun]
      simp only [hfind]
      rw [if_neg hba]
      simp [hsome, hrej]
  refine ⟨?_, hcases, ?_⟩
  · intro hnil
    cases hl : db.friendships.filter (fun f => relatesPair f a rc.id) with
    | nil => exact absurd hl hnil
    | cons x xs =>
      have hsome : (db.friendships.filter (fun f => relatesPair f a rc.id)).head? = some x := by
        rw [hl]; rfl
      obtain ⟨h1, h2, h3, h4⟩ := hcases x hsome
      cases hst : x.status with
      | accepted => exact ⟨_, h1 hst⟩
      | rejected => exact ⟨_, h4 hst⟩
      | pending =>
        by_cases hxr : x.requester = rc.id
        · exact ⟨_, h2 hst hxr⟩
        · refine ⟨"You have already sent a friend request to \x27" ++ un ++ "\x27.", ?_⟩
          unfold sendFriendRequest
          rw [if_neg hun]
          simp only [hfind]
          rw [if_neg hba]
          simp [hsome, hst, hxr]
  · intro hnil
    have hrun : ∃ p, sendFriendRequest db a un = .ok p := by
      have hnone : (db.friendships.filter (fun f => relatesPair f a rc.id)).head? = none := by
        rw [hnil]; rfl
      have hnofr : ∀ g ∈ db.friendships, relatesPair g a rc.id = false := by
        intro g hg
        simpa using List.filter_eq_nil_iff.mp hnil g hg
      have hany : (db.friendships.any (fun g => g.requester == a && g.receiver == rc.id)) = false := by
        rw [List.any_eq_false]
        intro g hg
        have := hnofr g hg
        unfold relatesPair at this
        simp only [Bool.or_eq_false_iff] at this
        simp [this.1]
      unfold sendFriendRequest insertFriendship
      rw [if_neg hun]
      simp only [hfind]
      rw [if_neg hba]
      simp only [hnone]
      simp only [hany, Bool.false_eq_true, if_false]
      rw [if_neg hba]
      exact ⟨_, rfl⟩
    obtain ⟨⟨fr, db'⟩, hrun⟩ := hrun
    obtain ⟨hdb, hreq, hst, hself, ⟨rc2, hrc2, hrecv⟩, _⟩ := sendFriendRequest_ok hrun
    have : rc2 = rc := by
      rw [hfind] at hrc2
      exact (Option.some.inj hrc2).symm
    subst this
    exact ⟨fr, db', hrun, hreq, hrecv, hst, by rw [hdb]⟩

/-- C3 witness: alice re-requesting bob while already friends gets the
already-friends conflict message. -/
theorem c3_send_request_symmetric_conflict_witness :
    sendFriendRequest dbBase 1 "bob"
      = .error (.validation "You are already friends with this user.") :=
  ((c3_send_request_symmetric_conflict dbBase 1 "bob" ⟨2, "bob"⟩ (by decide) rfl
    (by decide)).2.1 ⟨1, 1, 2, TriStatus.accepted⟩ rfl).1 rfl

/-- Transporting the Friendship invariant along a state whose friendships
table is unchanged. -/
theorem friendshipInvariant_congr {db db' : DB} (h : db'.friendships = db.friendships)
    (hinv : FriendshipInvariant db) : FriendshipInvariant db' := by
  unfold FriendshipInvariant at *
  rw [h]
  exact hinv

/-- A status-only update of one row preserves the Friendship invariant. -/
theorem friendshipInvariant_map_status {db : DB} (pk : Nat) (s : TriStatus)
    (hinv : FriendshipInvariant db) :
    FriendshipInvariant { db with friendships := db.friendships.map (fun f =>
      if f.id == pk then { f with status := s } else f) } := by
  obtain ⟨hself, hpair⟩ := hinv
  constructor
  · intro f hf
    obtain ⟨g, hg, hge⟩ := List.mem_map.mp hf
    rw [← hge]
    split
    · exact hself g hg
    · exact hself g hg
  · refine List.Pairwise.map _ ?_ hpair
    intro x y hxy
    split
    · split
      · exact hxy
      · exact hxy
    · split
      · exact hxy
      · exact hxy

/-- C4: starting from a state satisfying the Friendship invariants (no
self-referencing row, at most one row per unordered pair), every mutating
core operation preserves them. The read-only list and history endpoints
return no state at all in this embedding. -/
theorem c4_friendship_invariants_preserved (db : DB) (hinv : FriendshipInvariant db) :
    (∀ a un fr db', sendFriendRequest db a un = .ok (fr, db') → FriendshipInvariant db') ∧
    (∀ u pk act fr db', actOnFriendRequest db u pk act = .ok (fr, db') →
      FriendshipInvariant db') ∧
    (∀ a un amt d t db', createTransaction db a un amt d = .ok (t, db') →
      FriendshipInvariant db') ∧
    (∀ u pk act tr db', actOnTransaction db u pk act = .ok (tr, db') →
      FriendshipInvariant db') ∧
    (∀ a tid r db', requestTransactionDelete db a tid = .ok (r, db') →
      FriendshipInvariant db') ∧
    (∀ u pk act res db', actOnDeleteRequest db u pk act = .ok (res, db') →
      FriendshipInvariant db') ∧
    (∀ a un r db', requestHistoryReset db a un = .ok (r, db') →
      FriendshipInvariant db') ∧
    (∀ u pk act res db', actOnResetRequest db u pk act = .ok (res, db') →
      FriendshipInvariant db') := by
  refine ⟨?_, ?_, ?_, ?_, ?_, ?_, ?_, ?_⟩
  · intro a un fr db' h
    obtain ⟨hdb, hreq, hst, hself, _, hrel⟩ := sendFriendRequest_ok h
    obtain ⟨hselfinv, hpair⟩ := hinv
    subst hdb
    constructor
    · intro f hf
      rcases List.mem_append.mp hf with hf | hf
      · exact hselfinv f hf
      · rw [List.mem_singleton.mp hf]
        exact hself
    · rw [List.pairwise_append]
      refine ⟨hpair, List.pairwise_singleton _ _, ?_⟩
      intro g hg b hb
      rw [List.mem_singleton.mp hb]
      intro hcon
      have htrue : relatesPair g a fr.receiver = true := by
        unfold relatesPair
        rcases hcon with ⟨h1, h2⟩ | ⟨h1, h2⟩
        · rw [hreq] at h1
          simp [h1, h2]
        · rw [hreq] at h2
          simp [h1, h2]
      rw [hrel g hg] at htrue
      exact Bool.false_ne_true htrue
  · intro u pk act fr db' h
    obtain ⟨g, hg, hid, hrecv, hst, hfr, hdb⟩ := actOnFriendRequest_ok h
    subst hdb
    exact friendshipInvariant_map_status pk (acceptActionStatus act) hinv
  · intro a un amt d t db' h
    obtain ⟨hdb, _⟩ := createTransaction_ok h
    exact friendshipInvariant_congr (by rw [hdb]) hinv
  · intro u pk act tr db' h
    obtain ⟨t, ht, hid, hfr, hst, htr, hdb⟩ := actOnTransaction_ok h
    exact friendshipInvariant_congr (by rw [hdb]) hinv
  · intro a tid r db' h
    obtain ⟨hdb, _⟩ := requestTransactionDelete_ok h
    exact friendshipInvariant_congr (by rw [hdb]) hinv
  · intro u pk act res db' h
    cases act with
    | approve =>
      obtain ⟨dr, _, _, _, _, _, _, hdb⟩ := actOnDeleteRequest_approve_ok h
      exact friendshipInvariant_congr (by rw [hdb]) hinv
    | reject =>
      obtain ⟨dr, _, _, _, _, _, hdb⟩ := actOnDeleteRequest_reject_ok h
      exact friendshipInvariant_congr (by rw [hdb]) hinv
  · intro a un r db' h
    obtain ⟨hdb, _⟩ := requestHistoryReset_ok h
    exact friendshipInvariant_congr (by rw [hdb]) hinv
  · intro u pk act res db' h
    cases act with
    | approve =>
      obtain ⟨rq, _, _, _, _, _, hdb⟩ := actOnResetRequest_approve_ok h
      exact friendshipInvariant_congr (by rw [hdb]) hinv
    | reject =>
      obtain ⟨rq, _, _, _, _, _, hdb⟩ := actOnResetRequest_reject_ok h
      exact friendshipInvariant_congr (by rw [hdb]) hinv

/-- C4 witness: the invariant survives alice sending carol a request in
`dbBase`. -/
theorem c4_friendship_invariants_preserved_witness : FriendshipInvariant dbAfterSend :=
  (c4_friendship_invariants_preserved dbBase (by decide)).1 1 "carol"
    ⟨2, 1, 3, TriStatus.pending⟩ dbAfterSend rfl

/-- C5: approving a pending HistoryResetRequest as its target user marks
the request approved, deletes exactly the accepted transactions between
requester and target (either direction), reports their number, and leaves
every other transaction — pending or rejected between the pair, or
involving other pairs — in place. -/
theorem c5_reset_approve_deletes_exactly_accepted {db : DB} {u : UserId} {pk : Nat}
    {rq : HistoryResetRequest}
    (hnd : (db.resetRequests.map (fun r => r.id)).Nodup)
    (hrq : rq ∈ db.resetRequests) (hid : rq.id = pk)
    (htgt : rq.targetUser = u) (hst : rq.status = ReqStatus.pending) :
    ∃ db', actOnResetRequest db u pk ConsentAction.approve
        = .ok (ResetActionResult.approved ((db.transactions.filter (fun t =>
            txnBetween t rq.requester rq.targetUser &&
            t.status == TriStatus.accepted)).length), db') ∧
      db'.transactions = db.transactions.filter (fun t =>
        !(txnBetween t rq.requester rq.targetUser && t.status == TriStatus.accepted)) ∧
      (∀ t ∈ db.transactions,
        ¬ (txnBetween t rq.requester rq.targetUser = true ∧ t.status = TriStatus.accepted) →
        t ∈ db'.transactions) ∧
      (∀ t ∈ db'.transactions, t ∈ db.transactions ∧
        ¬ (txnBetween t rq.requester rq.targetUser = true ∧ t.status = TriStatus.accepted)) ∧
      { rq with status := ReqStatus.approved } ∈ db'.resetRequests := by
  have hobj : resetRequestGetObject db u pk = some rq := by
    unfold resetRequestGetObject
    exact filter_find?_eq_some hnd hrq hid (by simp [htgt, hst])
  have hrun : ∃ p, actOnResetRequest db u pk ConsentAction.approve = .ok p := by
    unfold actOnResetRequest
    rw [hobj]
    exact ⟨_, rfl⟩
  obtain ⟨⟨res, db'⟩, hrun⟩ := hrun
  obtain ⟨rq2, hrq2, hid2, htgt2, hst2, hres, hdb⟩ := actOnResetRequest_approve_ok hrun
  have hrq2rq : rq2 = rq :=
    List.inj_on_of_nodup_map hnd hrq2 hrq (by rw [hid2, hid])
  subst hrq2rq
  refine ⟨db', by rw [hrun, hres], by rw [hdb], ?_, ?_, ?_⟩
  · intro t ht hnot
    rw [hdb]
    refine List.mem_filter.mpr ⟨ht, ?_⟩
    cases hb : txnBetween t rq2.requester rq2.targetUser with
    | false => simp [hb]
    | true =>
      have hsa : t.status ≠ TriStatus.accepted := by
        intro hcon
        exact hnot ⟨hb, hcon⟩
      simp [hb, hsa]
  · intro t ht
    rw [hdb] at ht
    obtain ⟨htl, hp⟩ := List.mem_filter.mp ht
    refine ⟨htl, ?_⟩
    intro hcon
    rw [hcon.1] at hp
    simp [hcon.2] at hp
  · rw [hdb]
    have hupd : ({ rq2 with status := ReqStatus.approved })
        = (fun r => if r.id == pk then { r with status := ReqStatus.approved } else r) rq2 := by
      simp [hid]
    rw [hupd]
    exact List.mem_map_of_mem _ hrq2

/-- C5 witness: in `dbReset` bob approves the reset request; the two
accepted alice-bob transactions are deleted and counted, while the
pending alice-bob transaction and the accepted alice-carol transaction
survive. -/
theorem c5_reset_approve_deletes_exactly_accepted_witness :
    ∃ db', actOnResetRequest dbReset 2 1 ConsentAction.approve
        = .ok (ResetActionResult.approved ((dbReset.transactions.filter (fun t =>
            txnBetween t 1 2 && t.status == TriStatus.accepted)).length), db') ∧
      db'.transactions = dbReset.transactions.filter (fun t =>
        !(txnBetween t 1 2 && t.status == TriStatus.accepted)) ∧
      (∀ t ∈ dbReset.transactions,
        ¬ (txnBetween t 1 2 = true ∧ t.status = TriStatus.accepted) →
        t ∈ db'.transactions) ∧
      (∀ t ∈ db'.transactions, t ∈ dbReset.transactions ∧
        ¬ (txnBetween t 1 2 = true ∧ t.status = TriStatus.accepted)) ∧
      ({ id := 1, requester := 1, targetUser := 2, status := ReqStatus.approved }
        : HistoryResetRequest) ∈ db'.resetRequests :=
  @c5_reset_approve_deletes_exactly_accepted dbReset 2 1 ⟨1, 1, 2, ReqStatus.pending⟩
    (by decide) (by decide) rfl rfl rfl

/-- C6 counterexample: with amount 0 and a username that resolves to no
user, create-transaction raises the zero-amount ValidationError, not
NotFound — the source checks `amount == 0` before resolving the username,
so the claim that an unresolvable username fails NotFound is false at
this input. -/
theorem c6_notfound_ordering_counterexample :
    createTransaction dbBase 1 "ghost" 0 "x"
      = .error (.validation "Amount cannot be zero.") ∧
    findUserByName dbBase "ghost" = none ∧
    createTransaction dbBase 1 "ghost" 0 "x"
      ≠ .error (.notFound "User (friend) with that username does not exist.") :=
  ⟨rfl, rfl, by
    intro h
    rw [show createTransaction dbBase 1 "ghost" 0 "x"
        = .error (.validation "Amount cannot be zero.") from rfl] at h
    simp at h⟩

/-- C6 (amended): create-transaction checks the zero amount first — even
before resolving the username — then fails NotFound on an unresolvable
username, then InvalidOperation on a self-transaction or a pair without
an accepted friendship, and otherwise creates a pending FriendTransaction
with the given initiator, friend, amount and description. -/
theorem c6_create_transaction_checks (db : DB) (a : UserId) (un : String) (amt : Int)
    (d : String) (hun : un ≠ "") :
    (amt = 0 → createTransaction db a un amt d
        = .error (.validation "Amount cannot be zero.")) ∧
    (amt ≠ 0 → findUserByName db un = none → createTransaction db a un amt d
        = .error (.notFound "User (friend) with that username does not exist.")) ∧
    (∀ rc, amt ≠ 0 → findUserByName db un = some rc → a = rc.id →
      createTransaction db a un amt d
        = .error (.validation "You cannot create a transaction with yourself.")) ∧
    (∀ rc, amt ≠ 0 → findUserByName db un = some rc → a ≠ rc.id →
      areFriends db a rc.id = false →
      createTransaction db a un amt d
        = .error (.validation ("You are not friends with \x27" ++ un ++ "\x27."))) ∧
    (∀ rc, amt ≠ 0 → findUserByName db un = some rc → a ≠ rc.id →
      areFriends db a rc.id = true →
      ∃ t db', createTransaction db a un amt d = .ok (t, db') ∧
        t.initiator = a ∧ t.friend = rc.id ∧ t.amount = amt ∧ t.description = d ∧
        t.status = TriStatus.pending ∧ t.actionTakenBy = none ∧
        db'.transactions = db.transactions ++ [t]) := by
  refine ⟨?_, ?_, ?_, ?_, ?_⟩
  · intro hz
    unfold createTransaction
    rw [if_neg hun, if_pos (by simp [hz])]
  · intro hnz hnone
    unfold createTransaction
    rw [if_neg hun, if_neg (by simp [hnz])]
    simp only [hnone]
  · intro rc hnz hfind hself
    unfold createTransaction
    rw [if_neg hun, if_neg (by simp [hnz])]
    simp only [hfind]
    rw [if_pos (by simp [hself])]
  · intro rc hnz hfind hself hnf
    unfold createTransaction
    rw [if_neg hun, if_neg (by simp [hnz])]
    simp only [hfind]
    rw [if_neg (by simp [hself]), if_neg (by simp [hnf])]
  · intro rc hnz hfind hself hfr
    have hrun : ∃ p, createTransaction db a un amt d = .ok p := by
      unfold createTransaction insertTransaction
      rw [if_neg hun, if_neg (by simp [hnz])]
      simp only [hfind]
      rw [if_neg (by simp [hself]), if_pos hfr, if_neg (by simp [hself])]
      exact ⟨_, rfl⟩
    obtain ⟨⟨t, db'⟩, hrun⟩ := hrun
    obtain ⟨hdb, ht, hamt, hne, hfr2, rc2, hrc2, hrcid⟩ := createTransaction_ok hrun
    have hrc : rc2 = rc := by
      rw [hfind] at hrc2
      exact (Option.some.inj hrc2).symm
    refine ⟨t, db', hrun, ?_, ?_, ?_, ?_, ?_, ?_, by rw [hdb]⟩
    · rw [ht]
    · rw [← hrcid, hrc]
    · rw [ht]
    · rw [ht]
    · rw [ht]
    · rw [ht]

/-- C6 witness: the amended theorem at concrete inputs — alice creating a
500-cent transaction with bob succeeds in pending status. -/
theorem c6_create_transaction_checks_witness :
    ∃ t db', createTransaction dbBase 1 "bob" 500 "lunch" = .ok (t, db') ∧
      t.initiator = 1 ∧ t.friend = 2 ∧ t.amount = 500 ∧ t.description = "lunch" ∧
      t.status = TriStatus.pending ∧ t.actionTakenBy = none ∧
      db'.transactions = dbBase.transactions ++ [t] :=
  (c6_create_transaction_checks dbBase 1 "bob" 500 "lunch" (by decide)).2.2.2.2
    ⟨2, "bob"⟩ (by decide) rfl (by decide) rfl

/-- C7 counterexample: in `dbDelRej` no pending delete request exists on
transaction 1 (the only request row is rejected), alice is a party to the
transaction, yet refiling does not create a pending row — it violates the
`unique_together [transaction, requester]` constraint and fails with an
IntegrityError, contradicting the claim that the operation otherwise
creates a pending request. -/
theorem c7_refile_after_reject_counterexample :
    (∀ q ∈ dbDelRej.deleteRequests, ¬ (q.transaction = 1 ∧ q.status = ReqStatus.pending)) ∧
    (∃ t ∈ dbDelRej.transactions, t.id = 1 ∧ 1 = t.initiator) ∧
    requestTransactionDelete dbDelRej 1 (some 1)
      = .error (.integrity "unique_together transaction requester") :=
  ⟨by decide, by decide, rfl⟩

/-- C7 (amended): requesting deletion of a transaction fails with the
missing-id validation error, NotFound when the id does not resolve,
Forbidden (the not-a-party ValidationError) when the requester is neither
initiator nor friend, Conflict when a pending delete request already
exists on the transaction, and an IntegrityError (the database
`unique_together [transaction, requester]` constraint) when the same
requester already has a delete-request row for the transaction at any
status; only otherwise does it create a pending request. -/
theorem c7_request_delete_checks (db : DB) (a : UserId) :
    (requestTransactionDelete db a none
        = .error (.validation "Transaction ID must be provided.")) ∧
    (∀ tid, db.transactions.find? (fun t => t.id == tid) = none →
      requestTransactionDelete db a (some tid)
        = .error (.notFound "Transaction not found.")) ∧
    (∀ tid txn, db.transactions.find? (fun t => t.id == tid) = some txn →
      a ≠ txn.initiator → a ≠ txn.friend →
      requestTransactionDelete db a (some tid)
        = .error (.validation "You are not part of this transaction.")) ∧
    (∀ tid txn ex, db.transactions.find? (fun t => t.id == tid) = some txn →
      (a = txn.initiator ∨ a = txn.friend) →
      (db.deleteRequests.filter (fun r => r.transaction == txn.id &&
        r.status == ReqStatus.pending)).head? = some ex →
      requestTransactionDelete db a (some tid)
        = .error (.validation "A delete request already exists for this transaction.")) ∧
    (∀ tid txn, db.transactions.find? (fun t => t.id == tid) = some txn →
      (a = txn.initiator ∨ a = txn.friend) →
      (db.deleteRequests.filter (fun r => r.transaction == txn.id &&
        r.status == ReqStatus.pending)).head? = none →
      (∃ q ∈ db.deleteRequests, q.transaction = txn.id ∧ q.requester = a) →
      requestTransactionDelete db a (some tid)
        = .error (.integrity "unique_together transaction requester")) ∧
    (∀ tid txn, db.transactions.find? (fun t => t.id == tid) = some txn →
      (a = txn.initiator ∨ a = txn.friend) →
      (db.deleteRequests.filter (fun r => r.transaction == txn.id &&
        r.status == ReqStatus.pending)).head? = none →
      (∀ q ∈ db.deleteRequests, ¬ (q.transaction = txn.id ∧ q.requester = a)) →
      ∃ r db', requestTransactionDelete db a (some tid) = .ok (r, db') ∧
        r.transaction = txn.id ∧ r.requester = a ∧ r.status = ReqStatus.pending ∧
        db'.deleteRequests = db.deleteRequests ++ [r]) := by
  refine ⟨rfl, ?_, ?_, ?_, ?_, ?_⟩
  · intro tid hnone
    unfold requestTransactionDelete
    simp only [hnone]
  · intro tid txn hfind hni hnf
    unfold requestTransactionDelete
    simp only [hfind]
    rw [if_neg (by simp [hni, hnf])]
  · intro tid txn ex hfind hparty hsome
    unfold requestTransactionDelete
    simp only [hfind]
    rw [if_pos (by rcases hparty with h | h <;> simp [h])]
    simp only [hsome]
  · intro tid txn hfind hparty hnone hex
    obtain ⟨q, hq, hqt, hqa⟩ := hex
    unfold requestTransactionDelete insertDeleteRequest
    simp only [hfind]
    rw [if_pos (by rcases hparty with h | h <;> simp [h])]
    simp only [hnone]
    rw [if_pos (List.any_eq_true.mpr ⟨q, hq, by simp [hqt, hqa]⟩)]
  · intro tid txn hfind hparty hnone huniq
    exact requestTransactionDelete_creates hfind hparty hnone huniq

/-- C7 witness: the amended theorem at concrete inputs — in `dbDelRej`,
where alice already has a rejected request on transaction 1, refiling
hits the uniqueness constraint. -/
theorem c7_request_delete_checks_witness :
    requestTransactionDelete dbDelRej 1 (some 1)
      = .error (.integrity "unique_together transaction requester") :=
  (c7_request_delete_checks dbDelRej 1).2.2.2.2.1 1
    ⟨1, 1, 2, 500, "", TriStatus.accepted, some 2, 0⟩ rfl (Or.inl rfl) rfl
    ⟨⟨1, 1, 1, ReqStatus.rejected⟩, by decide, rfl, rfl⟩

/-- C8: acting on a FriendTransaction succeeds exactly when the acting
user is the transaction friend and the row is still pending; on success
the status becomes accepted/rejected according to the action,
action_taken_by is stamped with the acting user, every other field of the
row is unchanged, and every other transaction row is untouched. -/
theorem c8_transaction_act (db : DB) (u : UserId) (pk : Nat) (action : AcceptAction) :
    (∀ tr db', actOnTransaction db u pk action = .ok (tr, db') →
      ∃ t ∈ db.transactions, t.id = pk ∧ t.friend = u ∧ t.status = TriStatus.pending ∧
        tr = { t with status := acceptActionStatus action, actionTakenBy := some u } ∧
        db'.transactions = db.transactions.map (fun x => if x.id == pk then
          { x with status := acceptActionStatus action, actionTakenBy := some u } else x) ∧
        (∀ x ∈ db.transactions, x.id ≠ pk → x ∈ db'.transactions)) ∧
    (∀ t, (db.transactions.map (fun x => x.id)).Nodup → t ∈ db.transactions → t.id = pk →
      t.friend = u → t.status = TriStatus.pending →
      actOnTransaction db u pk action
        = .ok ({ t with status := acceptActionStatus action, actionTakenBy := some u },
          { db with transactions := db.transactions.map (fun x => if x.id == pk then
            { x with status := acceptActionStatus action, actionTakenBy := some u } else x) })) := by
  constructor
  · intro tr db' h
    obtain ⟨t, ht, hid, hfr, hst, htr, hdb⟩ := actOnTransaction_ok h
    refine ⟨t, ht, hid, hfr, hst, htr, by rw [hdb], ?_⟩
    intro x hx hxid
    rw [hdb]
    have hxpk : (x.id == pk) = false := beq_eq_false_iff_ne.mpr hxid
    have hfix : (fun y => if y.id == pk then
        { y with status := acceptActionStatus action, actionTakenBy := some u } else y) x = x := by
      simp [hxpk]
    rw [← hfix]
    exact List.mem_map_of_mem _ hx
  · intro t hnd ht hid hfr hst
    have hobj : transactionGetObject db u pk = some t := by
      unfold transactionGetObject
      exact filter_find?_eq_some hnd ht hid (by simp [hfr, hst])
    unfold actOnTransaction
    rw [hobj]
    simp only [hst]
    rfl

/-- C8 witness: bob accepting the pending transaction in `dbTxn`. -/
theorem c8_transaction_act_witness :
    actOnTransaction dbTxn 2 1 AcceptAction.accept
      = .ok (({ id := 1, initiator := 1, friend := 2, amount := 500, description := "",
                status := TriStatus.accepted, actionTakenBy := some 2, createdAt := 0 }
              : FriendTransaction),
        { dbTxn with transactions := dbTxn.transactions.map (fun x => if x.id == 1 then
            { x with status := TriStatus.accepted, actionTakenBy := some 2 } else x) }) :=
  (c8_transaction_act dbTxn 2 1 AcceptAction.accept).2
    ⟨1, 1, 2, 500, "", TriStatus.pending, none, 0⟩ (by decide) (by decide) rfl rfl rfl

/-- Transporting the delete-request pair-uniqueness invariant along a
state whose deleteRequests table is unchanged. -/
theorem deleteRequestInvariant_congr {db db' : DB}
    (h : db'.deleteRequests = db.deleteRequests)
    (hinv : DeleteRequestInvariant db) : DeleteRequestInvariant db' := by
  unfold DeleteRequestInvariant at *
  rw [h]
  exact hinv

/-- A status-only update of one delete-request row preserves pairwise
distinctness of (transaction, requester). -/
theorem drDistinct_map_status {l : List TransactionDeleteRequest} (pk : Nat) (s : ReqStatus)
    (h : List.Pairwise drDistinct l) :
    List.Pairwise drDistinct (l.map (fun r =>
      if r.id == pk then { r with status := s } else r)) := by
  refine List.Pairwise.map _ ?_ h
  intro x y hxy
  split
  · split
    · exact hxy
    · exact hxy
  · split
    · exact hxy
    · exact hxy

/-- C9: the `unique_together [transaction, requester]` invariant — at most
one TransactionDeleteRequest row per (transaction, requester) pair at any
status — is preserved by every mutating operation; a requester who
already has a row (even a rejected one) on a transaction can never file
another delete request on it, while a counter-party without such a row
still can. -/
theorem c9_delete_request_pair_uniqueness (db : DB) (hinv : DeleteRequestInvariant db) :
    (∀ a un fr db', sendFriendRequest db a un = .ok (fr, db') →
      DeleteRequestInvariant db') ∧
    (∀ u pk act fr db', actOnFriendRequest db u pk act = .ok (fr, db') →
      DeleteRequestInvariant db') ∧
    (∀ a un amt d t db', createTransaction db a un amt d = .ok (t, db') →
      DeleteRequestInvariant db') ∧
    (∀ u pk act tr db', actOnTransaction db u pk act = .ok (tr, db') →
      DeleteRequestInvariant db') ∧
    (∀ a tid r db', requestTransactionDelete db a tid = .ok (r, db') →
      DeleteRequestInvariant db') ∧
    (∀ u pk act res db', actOnDeleteRequest db u pk act = .ok (res, db') →
      DeleteRequestInvariant db') ∧
    (∀ a un r db', requestHistoryReset db a un = .ok (r, db') →
      DeleteRequestInvariant db') ∧
    (∀ u pk act res db', actOnResetRequest db u pk act = .ok (res, db') →
      DeleteRequestInvariant db') ∧
    (∀ a tid q, q ∈ db.deleteRequests → q.transaction = tid → q.requester = a →
      ∀ p, requestTransactionDelete db a (some tid) ≠ .ok p) ∧
    (∀ b tid txn, db.transactions.find? (fun t => t.id == tid) = some txn →
      (b = txn.initiator ∨ b = txn.friend) →
      (∀ q ∈ db.deleteRequests, ¬ (q.transaction = txn.id ∧ q.status = ReqStatus.pending)) →
      (∀ q ∈ db.deleteRequests, ¬ (q.transaction = txn.id ∧ q.requester = b)) →
      ∃ r db', requestTransactionDelete db b (some tid) = .ok (r, db')) := by
  refine ⟨?_, ?_, ?_, ?_, ?_, ?_, ?_, ?_, ?_, ?_⟩
  · intro a un fr db' h
    obtain ⟨hdb, _⟩ := sendFriendRequest_ok h
    exact deleteRequestInvariant_congr (by rw [hdb]) hinv
  · intro u pk act fr db' h
    obtain ⟨g, _, _, _, _, _, hdb⟩ := actOnFriendRequest_ok h
    exact deleteRequestInvariant_congr (by rw [hdb]) hinv
  · intro a un amt d t db' h
    obtain ⟨hdb, _⟩ := createTransaction_ok h
    exact deleteRequestInvariant_congr (by rw [hdb]) hinv
  · intro u pk act tr db' h
    obtain ⟨t, _, _, _, _, _, hdb⟩ := actOnTransaction_ok h
    exact deleteRequestInvariant_congr (by rw [hdb]) hinv
  · intro a tid r db' h
    obtain ⟨hdb, hst, hreq, _, huniq, _, _⟩ := requestTransactionDelete_ok h
    unfold DeleteRequestInvariant at *
    rw [hdb]
    rw [List.pairwise_append]
    refine ⟨hinv, List.pairwise_singleton _ _, ?_⟩
    intro q hq b hb
    rw [List.mem_singleton.mp hb]
    intro hcon
    exact huniq q hq ⟨hcon.1, by rw [hcon.2, hreq]⟩
  · intro u pk act res db' h
    cases act with
    | approve =>
      obtain ⟨dr, _, _, _, _, _, _, hdb⟩ := actOnDeleteRequest_approve_ok h
      unfold DeleteRequestInvariant at *
      rw [hdb]
      exact (drDistinct_map_status pk ReqStatus.approved hinv).filter _
    | reject =>
      obtain ⟨dr, _, _, _, _, _, hdb⟩ := actOnDeleteRequest_reject_ok h
      unfold DeleteRequestInvariant at *
      rw [hdb]
      exact drDistinct_map_status pk ReqStatus.rejected hinv
  · intro a un r db' h
    obtain ⟨hdb, _⟩ := requestHistoryReset_ok h
    exact deleteRequestInvariant_congr (by rw [hdb]) hinv
  · intro u pk act res db' h
    cases act with
    | approve =>
      obtain ⟨rq, _, _, _, _, _, hdb⟩ := actOnResetRequest_approve_ok h
      unfold DeleteRequestInvariant at *
      rw [hdb]
      exact hinv.filter _
    | reject =>
      obtain ⟨rq, _, _, _, _, _, hdb⟩ := actOnResetRequest_reject_ok h
      exact deleteRequestInvariant_congr (by rw [hdb]) hinv
  · intro a tid q hq hqt hqa p h
    obtain ⟨r, db'⟩ := p
    obtain ⟨_, _, hreq, htid, huniq, _, _⟩ := requestTransactionDelete_ok h
    have htid2 : tid = r.transaction := Option.some.inj htid
    exact huniq q hq ⟨by rw [hqt, htid2], hqa⟩
  · intro b tid txn hfind hparty hnopend huniq
    have hnone : (db.deleteRequests.filter (fun r => r.transaction == txn.id &&
        r.status == ReqStatus.pending)).head? = none := by
      rw [List.head?_eq_none_iff]
      rw [List.filter_eq_nil_iff]
      intro q hq
      intro hcon
      simp only [Bool.and_eq_true, beq_iff_eq] at hcon
      exact hnopend q hq ⟨hcon.1, hcon.2⟩
    obtain ⟨r, db', hrun, _⟩ := requestTransactionDelete_creates hfind hparty hnone huniq
    exact ⟨r, db', hrun⟩

/-- C9 witness: in `dbDelRej`, where alice already has a rejected request
on transaction 1, the counter-party bob can still file a delete request. -/
theorem c9_delete_request_pair_uniqueness_witness :
    ∃ r db', requestTransactionDelete dbDelRej 2 (some 1) = .ok (r, db') :=
  (c9_delete_request_pair_uniqueness dbDelRej (by decide)).2.2.2.2.2.2.2.2.2 2 1
    ⟨1, 1, 2, 500, "", TriStatus.accepted, some 2, 0⟩ rfl (Or.inr rfl)
    (by decide) (by decide)

/-- C10: the transaction-history endpoint has no friendship precondition —
for any username that resolves it succeeds and returns exactly the
transactions between the caller and that user (both directions, every
status), sorted newest-first by created_at; it fails NotFound exactly
when the (nonempty) username does not resolve. -/
theorem c10_transaction_history (db : DB) (u : UserId) (un : String) :
    (∀ rc, un ≠ "" → findUserByName db un = some rc →
      ∃ l, transactionHistory db u un = .ok l ∧
        l.Perm (db.transactions.filter (fun t => txnBetween t u rc.id)) ∧
        List.Pairwise (fun x y => y.createdAt ≤ x.createdAt) l) ∧
    (un ≠ "" → findUserByName db un = none →
      transactionHistory db u un = .error (.notFound "Friend not found.")) ∧
    (∀ msg, transactionHistory db u un = .error (.notFound msg) →
      findUserByName db un = none) := by
  refine ⟨?_, ?_, ?_⟩
  · intro rc hun hfind
    refine ⟨(db.transactions.filter (fun t => txnBetween t u rc.id)).mergeSort
      (fun x y => decide (y.createdAt ≤ x.createdAt)), ?_, ?_, ?_⟩
    · unfold transactionHistory
      rw [if_neg hun]
      simp only [hfind]
    · exact List.mergeSort_perm _ _
    · have hs := @List.sorted_mergeSort FriendTransaction
        (fun x y => decide (y.createdAt ≤ x.createdAt))
        (fun x y z h1 h2 => by
          simp only [decide_eq_true_iff] at h1 h2 ⊢
          exact le_trans h2 h1)
        (fun x y => by
          simp only [Bool.or_eq_true, decide_eq_true_iff]
          exact Nat.le_total y.createdAt x.createdAt)
        (db.transactions.filter (fun t => txnBetween t u rc.id))
      exact hs.imp (fun h => of_decide_eq_true h)
  · intro hun hnone
    unfold transactionHistory
    rw [if_neg hun]
    simp only [hnone]
  · intro msg h
    by_cases hun : un = ""
    · rw [hun] at h
      unfold transactionHistory at h
      rw [if_pos rfl] at h
      simp at h
    · cases hf : findUserByName db un with
      | none => rfl
      | some rc =>
        unfold transactionHistory at h
        rw [if_neg hun] at h
        simp only [hf] at h
        simp at h

/-- C10 witness: alice requesting history with bob in `dbReset` — all four
statuses of alice-bob rows are returned, newest first. -/
theorem c10_transaction_history_witness :
    ∃ l, transactionHistory dbReset 1 "bob" = .ok l ∧
      l.Perm (dbReset.transactions.filter (fun t => txnBetween t 1 2)) ∧
      List.Pairwise (fun x y => y.createdAt ≤ x.createdAt) l :=
  (c10_transaction_history dbReset 1 "bob").1 ⟨2, "bob"⟩ (by decide) rfl
end HisabKitab
